import Mathlib

/-!
Verification development for the district heating/cooling network solver in
`cea/technologies/thermal_network/thermal_network_matrix_edited.py`.

Machine floats are embedded as exact rationals.  NumPy library calls
(`np.linalg.solve`, `np.linalg.lstsq`) are embedded by their contract: the
solution vector they return is taken as a parameter constrained by the linear
system it satisfies.  External collaborators (the substation model, the
Darcy-Weisbach pressure-loss update inside the Hardy-Cross body) are embedded
as function parameters; every control-flow decision, rounding step and
accumulation that the Python code itself performs is translated directly.
-/

namespace ThermalNetwork

/-- Scalar core of `np.round`: round half to even (banker's rounding), which is
what NumPy implements. -/
def roundHalfEven (y : ℚ) : ℤ :=
  let f : ℤ := ⌊y⌋
  let r : ℚ := y - f
  if r < 1/2 then f
  else if 1/2 < r then f + 1
  else if f % 2 = 0 then f else f + 1

/-- `np.round(x, decimals=5)` applied to one entry, as on the return line of
`calc_mass_flow_edges` (`mass_flow_edge = np.round(mass_flow_edge, decimals=5)`). -/
def npRound5 (x : ℚ) : ℚ := (roundHalfEven (x * 100000) : ℚ) / 100000

theorem abs_roundHalfEven_sub_le (y : ℚ) : |(roundHalfEven y : ℚ) - y| ≤ 1/2 := by
  unfold roundHalfEven
  have hfloor : (⌊y⌋ : ℚ) ≤ y := Int.floor_le y
  have hlt : y < (⌊y⌋ : ℚ) + 1 := Int.lt_floor_add_one y
  by_cases h1 : y - (⌊y⌋ : ℚ) < 1/2
  · simp only [h1, if_true]
    rw [abs_sub_comm, abs_of_nonneg (by linarith)]
    linarith
  · by_cases h2 : (1:ℚ)/2 < y - (⌊y⌋ : ℚ)
    · simp only [h1, h2, if_true, if_false]
      push_cast
      rw [abs_of_nonneg (by linarith)]
      linarith
    · have heq : y - (⌊y⌋ : ℚ) = 1/2 := le_antisymm (not_lt.mp h2) (not_lt.mp h1)
      by_cases h3 : ⌊y⌋ % 2 = 0
      · simp only [h1, h2, h3, if_true, if_false]
        rw [abs_sub_comm, abs_of_nonneg (by linarith)]
        linarith
      · simp only [h1, h2, h3, if_true, if_false]
        push_cast
        rw [abs_of_nonneg (by linarith)]
        linarith

theorem abs_npRound5_sub_le (x : ℚ) : |npRound5 x - x| ≤ 1/200000 := by
  unfold npRound5
  have h := abs_roundHalfEven_sub_le (x * 100000)
  have h100 : (100000 : ℚ) > 0 := by norm_num
  have : (roundHalfEven (x * 100000) : ℚ) / 100000 - x
      = ((roundHalfEven (x * 100000) : ℚ) - x * 100000) / 100000 := by ring
  rw [this, abs_div, abs_of_pos h100]
  rw [div_le_iff₀ h100]
  linarith

/-- The left-hand side of one row of the nodal mass-balance system
`edge_node_df · mass_flow_edge`: the signed sum of edge flows incident to
node `i`. -/
def nodeBalance {n e : ℕ} (inc : Fin n → Fin e → ℚ) (m : Fin e → ℚ) (i : Fin n) : ℚ :=
  ∑ j, inc i j * m j

/-- Final rounding step of `calc_mass_flow_edges`: whatever vector the linear
solve (tree branch) or the Hardy-Cross correction (looped branch) produced, the
function returns `np.round(mass_flow_edge, decimals=5)`. -/
def calc_mass_flow_edges_round {e : ℕ} (m : Fin e → ℚ) : Fin e → ℚ :=
  fun j => npRound5 (m j)

/-- Concrete two-node, one-edge tree: node 0 is the plant, node 1 the consumer,
edge 0 runs from the plant to the consumer. -/
def inc1 : Fin 2 → Fin 1 → ℚ := fun i _ => if i = 0 then -1 else 1

/-- Node demand for the concrete tree: the consumer draws `4e-6 kg/s`. -/
def b1 : Fin 2 → ℚ := fun i => if i = 0 then -(1/250000) else 1/250000

/-- Exact solution of the reduced system for `inc1`/`b1`: the single edge
carries `4e-6 kg/s`. -/
def m1 : Fin 1 → ℚ := fun _ => 1/250000

/-- C1 counterexample: on the two-node tree with consumer demand `4e-6 kg/s`,
the exact solve satisfies the reduced system, yet the vector returned by
`calc_mass_flow_edges` (rounded to 5 decimals, hence `0`) leaves a residual of
`4e-6 ≥ 1e-6` at the consumer node, refuting the `< 1e-6` bound. -/
theorem calc_mass_flow_edges_tree_residual_counterexample :
    (∀ i : Fin 2, i ≠ 0 → nodeBalance inc1 m1 i = b1 i) ∧
    ¬ (∀ i : Fin 2, i ≠ 0 →
        |nodeBalance inc1 (calc_mass_flow_edges_round m1) i - b1 i| < 1/1000000) := by
  constructor
  · intro i hi
    fin_cases i
    · exact absurd rfl hi
    · simp [nodeBalance, inc1, m1, b1, Fin.sum_univ_one]
  · intro h
    have h1 := h 1 (by decide)
    have hbal : nodeBalance inc1 (calc_mass_flow_edges_round m1) 1 = 0 := by
      simp [nodeBalance, calc_mass_flow_edges_round, inc1, m1, Fin.sum_univ_one]
      norm_num [npRound5, roundHalfEven]
    have hb : b1 1 = 1/250000 := by norm_num [b1]
    rw [hbal, hb] at h1
    simp only [zero_sub, abs_neg] at h1
    rw [abs_of_pos (by norm_num)] at h1
    norm_num at h1

/-- C1 (amended): if the linear solve returns an exact solution `m` of the
reduced system (all rows except the first plant's row), then the rounded vector
returned by `calc_mass_flow_edges` satisfies every remaining node's balance up
to `5e-6` times the number of edges incident to that node. -/
theorem calc_mass_flow_edges_tree_residual {n e : ℕ} (inc : Fin n → Fin e → ℚ)
    (plant : Fin n) (b : Fin n → ℚ) (m : Fin e → ℚ)
    (hsolve : ∀ i, i ≠ plant → nodeBalance inc m i = b i)
    (hentries : ∀ i j, inc i j = -1 ∨ inc i j = 0 ∨ inc i j = 1)
    (i : Fin n) (hi : i ≠ plant) :
    |nodeBalance inc (calc_mass_flow_edges_round m) i - b i|
      ≤ ((Finset.univ.filter (fun j => inc i j ≠ 0)).card : ℚ) * (1/200000) := by
  have hdiff : nodeBalance inc (calc_mass_flow_edges_round m) i - b i
      = ∑ j, inc i j * (npRound5 (m j) - m j) := by
    rw [← hsolve i hi]
    unfold nodeBalance calc_mass_flow_edges_round
    rw [← Finset.sum_sub_distrib]
    exact Finset.sum_congr rfl (fun j _ => by ring)
  rw [hdiff]
  calc |∑ j, inc i j * (npRound5 (m j) - m j)|
      ≤ ∑ j, |inc i j * (npRound5 (m j) - m j)| := Finset.abs_sum_le_sum_abs _ _
    _ ≤ ∑ j, |inc i j| * (1/200000) := by
        refine Finset.sum_le_sum (fun j _ => ?_)
        rw [abs_mul]
        exact mul_le_mul_of_nonneg_left (abs_npRound5_sub_le (m j)) (abs_nonneg _)
    _ = (∑ j, |inc i j|) * (1/200000) := by rw [Finset.sum_mul]
    _ = ((Finset.univ.filter (fun j => inc i j ≠ 0)).card : ℚ) * (1/200000) := by
        congr 1
        have habs : ∀ j, |inc i j| = if inc i j ≠ 0 then (1:ℚ) else 0 := by
          intro j
          rcases hentries i j with h | h | h <;> simp [h]
        rw [Finset.sum_congr rfl (fun j _ => habs j), Finset.sum_boole]

/-- Witness for the amended C1 theorem on the concrete two-node tree. -/
theorem calc_mass_flow_edges_tree_residual_witness :
    |nodeBalance inc1 (calc_mass_flow_edges_round m1) 1 - b1 1|
      ≤ ((Finset.univ.filter (fun j => inc1 1 j ≠ 0)).card : ℚ) * (1/200000) :=
  calc_mass_flow_edges_tree_residual inc1 0 b1 m1
    (by
      intro i hi
      fin_cases i
      · exact absurd rfl hi
      · simp [nodeBalance, inc1, m1, b1, Fin.sum_univ_one])
    (by
      intro i j
      fin_cases i <;> simp [inc1])
    1 (by decide)

/-- C10: every entry returned by `calc_mass_flow_edges` is an integer multiple
of `1e-5 kg/s`, and rounding moves it at most `5e-6 kg/s` away from the vector
the solver produced. -/
theorem calc_mass_flow_edges_returns_multiples_of_1e5 {e : ℕ} (m : Fin e → ℚ) (j : Fin e) :
    (∃ z : ℤ, calc_mass_flow_edges_round m j = (z : ℚ) / 100000) ∧
    |calc_mass_flow_edges_round m j - m j| ≤ 1/200000 :=
  ⟨⟨roundHalfEven (m j * 100000), rfl⟩, abs_npRound5_sub_le (m j)⟩

/-- One row of `all_nodes_df`: the node's `Building` and `Type` columns. -/
structure NodeRec where
  building : String
  type : String

/-- `write_substation_values_to_nodes_df`: consumer nodes receive their
building's substation value, each plant node receives minus the summed consumer
value divided by the number of plants, all remaining nodes receive `0`. -/
def write_substation_values_to_nodes_df (all_nodes : List NodeRec)
    (df_value : String → ℚ) : List ℚ :=
  let number_of_plants : ℕ := (all_nodes.filter (fun r => r.type == "PLANT")).length
  let plant_mass_flow : ℚ :=
    ((all_nodes.filter (fun r => r.type == "CONSUMER")).map (fun r => df_value r.building)).sum
      / number_of_plants
  all_nodes.map (fun r =>
    if r.type == "CONSUMER" then df_value r.building
    else if r.type == "PLANT" then -plant_mass_flow
    else 0)

theorem nodes_value_sum (all_nodes : List NodeRec) (df_value : String → ℚ) (c : ℚ) :
    (all_nodes.map (fun r =>
        if r.type == "CONSUMER" then df_value r.building
        else if r.type == "PLANT" then -c
        else 0)).sum
      = ((all_nodes.filter (fun r => r.type == "CONSUMER")).map
            (fun r => df_value r.building)).sum
        + ((all_nodes.filter (fun r => r.type == "PLANT")).length : ℚ) * (-c) := by
  induction all_nodes with
  | nil => simp
  | cons r t ih =>
    by_cases hc : r.type == "CONSUMER"
    · have hp : (r.type == "PLANT") = false := by
        rw [beq_iff_eq] at hc
        simp [hc]
      simp only [List.map_cons, List.sum_cons, List.filter_cons, hc, hp, if_true]
      rw [ih]
      simp
      ring
    · by_cases hp : r.type == "PLANT"
      · simp only [List.map_cons, List.sum_cons, List.filter_cons, hc, hp, if_false, if_true,
          Bool.false_eq_true, List.length_cons]
        rw [ih]
        push_cast
        ring
      · simp only [List.map_cons, List.sum_cons, List.filter_cons, hc, hp, if_false,
          Bool.false_eq_true]
        rw [ih]
        ring

/-- C2: with at least one plant node, the node demand vector written by
`write_substation_values_to_nodes_df` sums to zero: total consumer demand
equals total plant supply. -/
theorem write_substation_values_to_nodes_df_sum_zero (all_nodes : List NodeRec)
    (df_value : String → ℚ)
    (hplant : 1 ≤ (all_nodes.filter (fun r => r.type == "PLANT")).length) :
    (write_substation_values_to_nodes_df all_nodes df_value).sum = 0 := by
  unfold write_substation_values_to_nodes_df
  rw [nodes_value_sum]
  have hne : ((all_nodes.filter (fun r => r.type == "PLANT")).length : ℚ) ≠ 0 := by
    have h0 : (0:ℕ) < (all_nodes.filter (fun r => r.type == "PLANT")).length := hplant
    exact Nat.cast_ne_zero.mpr (Nat.pos_iff_ne_zero.mp h0)
  field_simp
  ring

/-- Concrete three-node network for the C2 witness: one consumer served by
building `B1`, one plant, one junction. -/
def nodes2 : List NodeRec :=
  [⟨"B1", "CONSUMER"⟩, ⟨"NONE", "PLANT"⟩, ⟨"NONE", "NONE"⟩]

/-- Witness for C2 on the concrete three-node network with consumer flow 5. -/
theorem write_substation_values_to_nodes_df_sum_zero_witness :
    (write_substation_values_to_nodes_df nodes2 (fun _ => 5)).sum = 0 :=
  write_substation_values_to_nodes_df_sum_zero nodes2 (fun _ => 5) (by decide)

/-- `solve_network_temperatures`, outer dispatch: when the time-step's edge
mass-flow vector is not identically zero the full solver (embedded as the
parameter `fullSolve`) runs; otherwise the degenerate result is returned
directly (all-NaN supply/return temperatures modelled as `none`, zero edge heat
losses, zero plant heat requirement, the input flow vector unchanged).  Result
order matches the Python return:
`(t_supply_nodes, t_return_nodes, plant_heat_requirement, edge_mass_flow, q_loss_edges)`. -/
def solve_network_temperatures {nn ne np : ℕ}
    (fullSolve : (Fin nn → Option ℚ) × (Fin nn → Option ℚ) × (Fin np → ℚ) ×
      (Fin ne → ℚ) × (Fin ne → ℚ))
    (edge_mass_flow : Fin ne → ℚ) :
    (Fin nn → Option ℚ) × (Fin nn → Option ℚ) × (Fin np → ℚ) ×
      (Fin ne → ℚ) × (Fin ne → ℚ) :=
  if (∑ j, |edge_mass_flow j|) ≠ 0 then fullSolve
  else (fun _ => none, fun _ => none, fun _ => 0, edge_mass_flow, fun _ => 0)

/-- C9: an all-zero edge mass-flow vector short-circuits
`solve_network_temperatures` to the degenerate result, whatever the full solver
would have computed. -/
theorem solve_network_temperatures_zero_flow {nn ne np : ℕ}
    (fullSolve : (Fin nn → Option ℚ) × (Fin nn → Option ℚ) × (Fin np → ℚ) ×
      (Fin ne → ℚ) × (Fin ne → ℚ))
    (edge_mass_flow : Fin ne → ℚ) (h : ∀ j, edge_mass_flow j = 0) :
    solve_network_temperatures fullSolve edge_mass_flow
      = (fun _ => none, fun _ => none, fun _ => 0, edge_mass_flow, fun _ => 0) := by
  unfold solve_network_temperatures
  have hs : (∑ j, |edge_mass_flow j|) = 0 := by simp [h]
  rw [if_neg (not_not_intro hs)]

/-- Witness for C9 at a concrete one-node, one-edge, one-plant shape with zero
flow and an arbitrary full-solver result. -/
theorem solve_network_temperatures_zero_flow_witness :
    solve_network_temperatures
        ((fun _ => some 1, fun _ => some 1, fun _ => 1, fun _ => 1, fun _ => 1) :
          (Fin 1 → Option ℚ) × (Fin 1 → Option ℚ) × (Fin 1 → ℚ) ×
            (Fin 1 → ℚ) × (Fin 1 → ℚ))
        (fun _ => 0)
      = (fun _ => none, fun _ => none, fun _ => 0, fun _ => 0, fun _ => 0) :=
  solve_network_temperatures_zero_flow _ (fun _ => 0) (fun _ => rfl)

/-- Peak absolute flow of one edge over the horizon:
`np.amax(np.absolute(mass_flow_df[pipe].values))`. -/
def peak_abs_flow (flows : List ℚ) : ℚ := (flows.map (fun x => |x|)).foldr max 0

/-- `assign_pipes_to_edges`, sizing branch (`set_diameter` true), for one edge:
walk the catalog's `mdot_max_kgs` column from index 0 and take the first record
covering the required flow; on reaching the last record without a fit, take it
anyway and flag (`true`) the printed sizing-insufficiency warning. -/
def assign_pipe_for_edge (need : ℚ) : List ℚ → ℕ × Bool
  | [] => (0, false)
  | [c] => if need ≤ c then (0, false) else (0, true)
  | c :: c2 :: rest =>
      if need ≤ c then (0, false)
      else
        let r := assign_pipe_for_edge need (c2 :: rest)
        (r.1 + 1, r.2)

/-- C7: in sizing mode, the catalog record assigned to an edge is the first one
whose maximum rated mass flow covers the edge's requirement (no warning); if no
record suffices, the last record is assigned and the warning is flagged. -/
theorem assign_pipe_for_edge_first_fit (cat : List ℚ) (need : ℚ) (hne : cat ≠ []) :
    ((∃ j, j < cat.length ∧ need ≤ cat.getD j 0) →
        (assign_pipe_for_edge need cat).1 < cat.length ∧
        need ≤ cat.getD (assign_pipe_for_edge need cat).1 0 ∧
        (∀ j, j < (assign_pipe_for_edge need cat).1 → cat.getD j 0 < need) ∧
        (assign_pipe_for_edge need cat).2 = false)
    ∧ ((∀ j, j < cat.length → cat.getD j 0 < need) →
        (assign_pipe_for_edge need cat).1 = cat.length - 1 ∧
        (assign_pipe_for_edge need cat).2 = true) := by
  induction cat with
  | nil => exact absurd rfl hne
  | cons c rest ih =>
    cases rest with
    | nil =>
      constructor
      · rintro ⟨j, hj, hfit⟩
        have hj0 : j = 0 := by simpa using hj
        subst hj0
        simp only [List.getD_cons_zero] at hfit
        simp [assign_pipe_for_edge, hfit]
      · intro hall
        have := hall 0 (by simp)
        simp only [List.getD_cons_zero] at this
        simp [assign_pipe_for_edge, not_le.mpr this]
    | cons c2 rest2 =>
      have ih2 := ih (by simp)
      by_cases hfit0 : need ≤ c
      · constructor
        · intro _
          refine ⟨by simp [assign_pipe_for_edge, hfit0], ?_, ?_, ?_⟩
          · simp [assign_pipe_for_edge, hfit0]
          · intro j hj
            simp [assign_pipe_for_edge, hfit0] at hj
          · simp [assign_pipe_for_edge, hfit0]
        · intro hall
          have := hall 0 (by simp)
          simp only [List.getD_cons_zero] at this
          exact absurd hfit0 (not_le.mpr this)
      · have hrec : assign_pipe_for_edge need (c :: c2 :: rest2)
            = ((assign_pipe_for_edge need (c2 :: rest2)).1 + 1,
               (assign_pipe_for_edge need (c2 :: rest2)).2) := by
          simp [assign_pipe_for_edge, hfit0]
        constructor
        · rintro ⟨j, hj, hfit⟩
          have hj0 : j ≠ 0 := by
            intro h0
            rw [h0, List.getD_cons_zero] at hfit
            exact hfit0 hfit
          obtain ⟨j2, rfl⟩ := Nat.exists_eq_succ_of_ne_zero hj0
          have hex : ∃ j, j < (c2 :: rest2).length ∧ need ≤ (c2 :: rest2).getD j 0 := by
            refine ⟨j2, ?_, ?_⟩
            · simpa [Nat.succ_lt_succ_iff] using hj
            · simpa [List.getD_cons_succ] using hfit
          obtain ⟨h1, h2, h3, h4⟩ := ih2.1 hex
          rw [hrec]
          refine ⟨by simpa [Nat.succ_lt_succ_iff] using h1, by simpa [List.getD_cons_succ] using h2,
            ?_, h4⟩
          intro j hjlt
          cases j with
          | zero => simpa using not_le.mp hfit0
          | succ j3 =>
            simp only [List.getD_cons_succ]
            exact h3 j3 (by omega)
        · intro hall
          have hall2 : ∀ j, j < (c2 :: rest2).length → (c2 :: rest2).getD j 0 < need := by
            intro j hj
            have := hall (j + 1) (by simpa [Nat.succ_lt_succ_iff] using hj)
            simpa [List.getD_cons_succ] using this
          obtain ⟨h1, h2⟩ := ih2.2 hall2
          rw [hrec]
          constructor
          · simp only [h1, List.length_cons]
            omega
          · exact h2

/-- Witness for C7: catalog `[1, 2, 4]`, required flow `3/2` — record 1 is the
first fit and no warning is flagged; with required flow `8` no record fits, the
last record is assigned and the warning is flagged. -/
theorem assign_pipe_for_edge_first_fit_witness :
    ((assign_pipe_for_edge (3/2) [1, 2, 4]).1 < 3 ∧
      (3/2 : ℚ) ≤ [(1:ℚ), 2, 4].getD (assign_pipe_for_edge (3/2) [1, 2, 4]).1 0 ∧
      (∀ j, j < (assign_pipe_for_edge (3/2) [(1:ℚ), 2, 4]).1 → [(1:ℚ), 2, 4].getD j 0 < 3/2) ∧
      (assign_pipe_for_edge (3/2) [(1:ℚ), 2, 4]).2 = false) ∧
    ((assign_pipe_for_edge 8 [(1:ℚ), 2, 4]).1 = 2 ∧
      (assign_pipe_for_edge 8 [(1:ℚ), 2, 4]).2 = true) :=
  ⟨(assign_pipe_for_edge_first_fit [1, 2, 4] (3/2) (by simp)).1
      ⟨1, by norm_num⟩,
    (assign_pipe_for_edge_first_fit [1, 2, 4] 8 (by simp)).2
      (by
        intro j hj
        simp only [List.length_cons, List.length_nil] at hj
        interval_cases j <;> norm_num)⟩

/-- Edge-node matrix construction shared by `get_thermal_network_from_csv` and
`get_thermal_network_from_shapefile`: entry `(i, j)` is `+1` when edge `j`'s
end-node name equals node `i`'s name, else `-1` when its start-node name equals
node `i`'s name, else `0`.  The Python loops perform no validity check on the
endpoints. -/
def edge_node_matrix {α : Type} [DecidableEq α] (nodes : List α) (edges : List (α × α))
    (i : Fin nodes.length) (j : Fin edges.length) : ℤ :=
  if (edges.get j).2 = nodes.get i then 1
  else if (edges.get j).1 = nodes.get i then -1
  else 0

/-- Number of entries of column `j` of the constructed edge-node matrix equal
to `v`. -/
def edge_node_col_count {α : Type} [DecidableEq α] (nodes : List α) (edges : List (α × α))
    (j : Fin edges.length) (v : ℤ) : ℕ :=
  (Finset.univ.filter (fun i => edge_node_matrix nodes edges i j = v)).card

theorem card_filter_get_eq {α : Type} [DecidableEq α] (nodes : List α) (h : nodes.Nodup)
    (x : α) (hx : x ∈ nodes) :
    (Finset.univ.filter (fun i : Fin nodes.length => nodes.get i = x)).card = 1 := by
  obtain ⟨i0, hi0⟩ := List.mem_iff_get.mp hx
  rw [Finset.card_eq_one]
  refine ⟨i0, ?_⟩
  ext i
  simp only [Finset.mem_filter, Finset.mem_univ, true_and, Finset.mem_singleton]
  constructor
  · intro hget
    exact (List.Nodup.get_inj_iff h).mp (hget.trans hi0.symm)
  · intro hi
    rw [hi, hi0]

/-- C8 (amended): whenever the node list is duplicate-free and the edge's start
and end names each match a node and differ from each other, the constructed
column has exactly one `+1` and exactly one `-1` entry. -/
theorem edge_node_matrix_column_counts {α : Type} [DecidableEq α] (nodes : List α)
    (edges : List (α × α)) (j : Fin edges.length) (hnodup : nodes.Nodup)
    (hstart : (edges.get j).1 ∈ nodes) (hend : (edges.get j).2 ∈ nodes)
    (hne : (edges.get j).1 ≠ (edges.get j).2) :
    edge_node_col_count nodes edges j 1 = 1 ∧ edge_node_col_count nodes edges j (-1) = 1 := by
  constructor
  · have hiff : ∀ i, edge_node_matrix nodes edges i j = 1 ↔ nodes.get i = (edges.get j).2 := by
      intro i
      unfold edge_node_matrix
      by_cases h2 : (edges.get j).2 = nodes.get i
      · rw [if_pos h2]
        exact ⟨fun _ => h2.symm, fun _ => rfl⟩
      · rw [if_neg h2]
        by_cases h1 : (edges.get j).1 = nodes.get i
        · rw [if_pos h1]
          constructor
          · intro hcontr
            norm_num at hcontr
          · intro hg
            exact absurd hg.symm h2
        · rw [if_neg h1]
          constructor
          · intro hcontr
            norm_num at hcontr
          · intro hg
            exact absurd hg.symm h2
    unfold edge_node_col_count
    rw [Finset.filter_congr (fun i _ => by rw [hiff i])]
    exact card_filter_get_eq nodes hnodup _ hend
  · have hiff : ∀ i, edge_node_matrix nodes edges i j = -1 ↔ nodes.get i = (edges.get j).1 := by
      intro i
      unfold edge_node_matrix
      by_cases h2 : (edges.get j).2 = nodes.get i
      · rw [if_pos h2]
        constructor
        · intro hcontr
          norm_num at hcontr
        · intro hg
          exact absurd (hg ▸ h2 : (edges.get j).2 = (edges.get j).1).symm hne
      · rw [if_neg h2]
        by_cases h1 : (edges.get j).1 = nodes.get i
        · rw [if_pos h1]
          exact ⟨fun _ => h1.symm, fun _ => rfl⟩
        · rw [if_neg h1]
          constructor
          · intro hcontr
            norm_num at hcontr
          · intro hg
            exact absurd hg.symm h1
    unfold edge_node_col_count
    rw [Finset.filter_congr (fun i _ => by rw [hiff i])]
    exact card_filter_get_eq nodes hnodup _ hstart

/-- Node name list for the C8 instances. -/
def nodesC : List ℕ := [0, 1]

/-- One malformed edge whose start node equals its end node. -/
def edgesC : List (ℕ × ℕ) := [(0, 0)]

/-- One well-formed edge from node `0` to node `1`. -/
def edgesW : List (ℕ × ℕ) := [(0, 1)]

/-- C8 counterexample: a self-loop edge (start node name = end node name) is
accepted without any error and yields a column with one `+1` and no `-1`,
violating the exactly-one-of-each invariant instead of failing fast. -/
theorem edge_node_matrix_no_fail_counterexample :
    edge_node_col_count nodesC edgesC ⟨0, by decide⟩ (-1) = 0 ∧
    edge_node_col_count nodesC edgesC ⟨0, by decide⟩ 1 = 1 := by decide

/-- Witness for the amended C8 theorem on a well-formed two-node, one-edge
topology. -/
theorem edge_node_matrix_column_counts_witness :
    edge_node_col_count nodesC edgesW ⟨0, by decide⟩ 1 = 1 ∧
    edge_node_col_count nodesC edgesW ⟨0, by decide⟩ (-1) = 1 :=
  edge_node_matrix_column_counts nodesC edgesW ⟨0, by decide⟩ (by decide) (by decide)
    (by decide) (by decide)

/-- Body of one pass of `change_to_edge_node_matrix_t`: flip (negate) exactly
the incidence-matrix columns of the edges whose current mass flow is negative,
swapping their logical start and end nodes. -/
def flip_negative_columns {n e : ℕ} (flow : Fin e → ℚ) (enm : Fin n → Fin e → ℚ) :
    Fin n → Fin e → ℚ :=
  fun i j => if flow j < 0 then -(enm i j) else enm i j

/-- `while edge_mass_flow.min() < 0` loop of `change_to_edge_node_matrix_t`.
`solver` stands for the recursive call to `calc_mass_flow_edges` with all
time-step-constant arguments fixed; `fuel` bounds the iterations, `none`
meaning the loop had not yet terminated within `fuel` passes. -/
def change_go {n e : ℕ} (solver : (Fin n → Fin e → ℚ) → Fin e → ℚ) :
    ℕ → (Fin e → ℚ) → (Fin n → Fin e → ℚ) →
      Option ((Fin e → ℚ) × (Fin n → Fin e → ℚ))
  | 0, _, _ => none
  | fuel + 1, flow, enm =>
      if ∃ j, flow j < 0 then
        change_go solver fuel (solver (flip_negative_columns flow enm))
          (flip_negative_columns flow enm)
      else some (flow, enm)

/-- `change_to_edge_node_matrix_t`: round the incoming flows to 5 decimals,
then repeatedly flip the columns of negative-flow edges and re-solve until no
edge flow is negative. -/
def change_to_edge_node_matrix_t {n e : ℕ}
    (solver : (Fin n → Fin e → ℚ) → Fin e → ℚ) (fuel : ℕ)
    (edge_mass_flow : Fin e → ℚ) (edge_node_df : Fin n → Fin e → ℚ) :
    Option ((Fin e → ℚ) × (Fin n → Fin e → ℚ)) :=
  change_go solver fuel (fun j => npRound5 (edge_mass_flow j)) edge_node_df

theorem change_go_some_nonneg {n e : ℕ} (solver : (Fin n → Fin e → ℚ) → Fin e → ℚ) :
    ∀ (fuel : ℕ) (flow : Fin e → ℚ) (enm : Fin n → Fin e → ℚ) res,
      change_go solver fuel flow enm = some res → ∀ j, 0 ≤ res.1 j := by
  intro fuel
  induction fuel with
  | zero => intro flow enm res h; exact absurd h (by simp [change_go])
  | succ fuel ih =>
    intro flow enm res h
    unfold change_go at h
    by_cases hneg : ∃ j, flow j < 0
    · rw [if_pos hneg] at h
      exact ih _ _ res h
    · rw [if_neg hneg] at h
      obtain rfl : (flow, enm) = res := Option.some_injective _ h
      intro j
      exact not_lt.mp (fun hj => hneg ⟨j, hj⟩)

/-- C3: whenever the direction-normalization loop of
`change_to_edge_node_matrix_t` terminates, every returned edge mass flow is
non-negative; and each iteration negates exactly the incidence columns of the
currently negative-flow edges and re-solves via `calc_mass_flow_edges`. -/
theorem change_to_edge_node_matrix_t_spec {n e : ℕ}
    (solver : (Fin n → Fin e → ℚ) → Fin e → ℚ) (fuel : ℕ)
    (edge_mass_flow : Fin e → ℚ) (edge_node_df : Fin n → Fin e → ℚ)
    (res : (Fin e → ℚ) × (Fin n → Fin e → ℚ))
    (hterm : change_to_edge_node_matrix_t solver fuel edge_mass_flow edge_node_df = some res) :
    (∀ j, 0 ≤ res.1 j) ∧
    (∀ (flow : Fin e → ℚ) (enm : Fin n → Fin e → ℚ) (fl : ℕ), (∃ j, flow j < 0) →
        change_go solver (fl + 1) flow enm
          = change_go solver fl (solver (flip_negative_columns flow enm))
              (flip_negative_columns flow enm)) := by
  constructor
  · exact change_go_some_nonneg solver fuel _ edge_node_df res hterm
  · intro flow enm fl hneg
    conv_lhs => rw [change_go]
    rw [if_pos hneg]

/-- Solver oracle for the C3 witness: always returns flow 1 on the single edge. -/
def solverW : (Fin 2 → Fin 1 → ℚ) → Fin 1 → ℚ := fun _ _ => 1

/-- Initial flow for the C3 witness: `-1` on the single edge. -/
def flowW : Fin 1 → ℚ := fun _ => -1

theorem change_witness_run :
    change_to_edge_node_matrix_t solverW 2 flowW inc1
      = some (fun _ => 1, flip_negative_columns (fun j => npRound5 (flowW j)) inc1) := by
  have hround : npRound5 (-1) = -1 := by norm_num [npRound5, roundHalfEven]
  unfold change_to_edge_node_matrix_t
  rw [change_go]
  rw [if_pos ⟨0, by show npRound5 (flowW 0) < 0; rw [show flowW 0 = -1 from rfl, hround]; norm_num⟩]
  rw [change_go]
  rw [if_neg (by
    rintro ⟨j, hj⟩
    simp [solverW] at hj
    norm_num at hj)]
  rfl

/-- Witness for C3: after the run on the concrete one-edge network the returned
flow is non-negative. -/
theorem change_to_edge_node_matrix_t_spec_witness :
    0 ≤ ((fun _ => 1, flip_negative_columns (fun j => npRound5 (flowW j)) inc1) :
        (Fin 1 → ℚ) × (Fin 2 → Fin 1 → ℚ)).1 0 :=
  (change_to_edge_node_matrix_t_spec solverW 2 flowW inc1 _ change_witness_run).1 0

/-- Tolerance schedule of the looped branch of `calc_mass_flow_edges`, applied
after the iteration counter is incremented:
`0.01` while `iterations < 20`, `0.02` while `iterations < 50`, `0.03` while
`iterations < 100`. -/
def hc_tolerance (iterations : ℕ) : ℚ :=
  if iterations < 20 then 1/100 else if iterations < 50 then 2/100 else 3/100

/-- Hardy-Cross correction loop of `calc_mass_flow_edges` (looped branch):
`while (abs(mass_flow_edge - m_old) > tolerance).any()`.  `update` stands for
the loop body computing the corrected flows from `m_old` (pressure losses,
per-loop corrections); after each body run the counter is incremented and the
tolerance rescheduled, or — at 100 iterations — the loop breaks, returning the
current flow estimate.  `fuel` is a structural recursion bound; `none` would
mean it was exhausted before the loop finished. -/
def hc_go {e : ℕ} (update : (Fin e → ℚ) → Fin e → ℚ) :
    ℕ → (Fin e → ℚ) → (Fin e → ℚ) → ℚ → ℕ → Option ((Fin e → ℚ) × ℕ)
  | 0, _, _, _, _ => none
  | fuel + 1, flow, mOld, tol, iterations =>
      if ∃ j, tol < |flow j - mOld j| then
        if iterations + 1 < 100 then
          hc_go update fuel (update flow) flow (hc_tolerance (iterations + 1)) (iterations + 1)
        else some (update flow, iterations + 1)
      else some (flow, iterations)

/-- Looped branch of `calc_mass_flow_edges` after the initial least-squares
guess `m0`: `m_old` starts at `mass_flow_edge - mass_flow_edge` (all zeros),
the tolerance at `0.01`, the counter at `0`. -/
def calc_mass_flow_edges_looped {e : ℕ} (update : (Fin e → ℚ) → Fin e → ℚ)
    (m0 : Fin e → ℚ) : Option ((Fin e → ℚ) × ℕ) :=
  hc_go update 101 m0 (fun _ => 0) (1/100) 0

theorem hc_go_terminates {e : ℕ} (update : (Fin e → ℚ) → Fin e → ℚ) :
    ∀ (fuel iterations : ℕ) (flow mOld : Fin e → ℚ) (tol : ℚ),
      101 ≤ fuel + iterations → iterations ≤ 99 →
      ∃ r, hc_go update fuel flow mOld tol iterations = some r ∧ r.2 ≤ 100 := by
  intro fuel
  induction fuel with
  | zero => intro iterations flow mOld tol hfuel hit; omega
  | succ fuel ih =>
    intro iterations flow mOld tol hfuel hit
    unfold hc_go
    by_cases hcond : ∃ j, tol < |flow j - mOld j|
    · rw [if_pos hcond]
      by_cases hit2 : iterations + 1 < 100
      · rw [if_pos hit2]
        exact ih (iterations + 1) (update flow) flow (hc_tolerance (iterations + 1))
          (by omega) (by omega)
      · rw [if_neg hit2]
        exact ⟨(update flow, iterations + 1), rfl, by omega⟩
    · rw [if_neg hcond]
      exact ⟨(flow, iterations), rfl, by omega⟩

/-- C4: for every loop-correction body and every initial guess, the Hardy-Cross
loop of `calc_mass_flow_edges` terminates within 100 iterations, returning the
current flow estimate rather than raising; and the convergence tolerance
follows the schedule 0.01 below 20 iterations, 0.02 below 50, 0.03 below 100. -/
theorem calc_mass_flow_edges_looped_bounded {e : ℕ}
    (update : (Fin e → ℚ) → Fin e → ℚ) (m0 : Fin e → ℚ) :
    (∃ r, calc_mass_flow_edges_looped update m0 = some r ∧ r.2 ≤ 100) ∧
    (∀ i, 1 ≤ i → i < 20 → hc_tolerance i = 1/100) ∧
    (∀ i, 20 ≤ i → i < 50 → hc_tolerance i = 2/100) ∧
    (∀ i, 50 ≤ i → i < 100 → hc_tolerance i = 3/100) := by
  refine ⟨?_, ?_, ?_, ?_⟩
  · exact hc_go_terminates update 101 0 m0 (fun _ => 0) (1/100) (by omega) (by omega)
  · intro i h1 h2
    simp [hc_tolerance, h2]
  · intro i h1 h2
    have : ¬ i < 20 := by omega
    simp [hc_tolerance, this, h2]
  · intro i h1 h2
    have h20 : ¬ i < 20 := by omega
    have h50 : ¬ i < 50 := by omega
    simp [hc_tolerance, h20, h50]

/-- Witness for C4 at a concrete one-edge instance with the identity body. -/
theorem calc_mass_flow_edges_looped_bounded_witness :
    (∃ r, calc_mass_flow_edges_looped (fun m => m) (fun _ : Fin 1 => 1) = some r ∧ r.2 ≤ 100) ∧
    hc_tolerance 5 = 1/100 ∧ hc_tolerance 30 = 2/100 ∧ hc_tolerance 70 = 3/100 :=
  ⟨(calc_mass_flow_edges_looped_bounded (fun m => m) (fun _ : Fin 1 => 1)).1,
    (calc_mass_flow_edges_looped_bounded (fun m => m) (fun _ : Fin 1 => 1)).2.1 5
      (by norm_num) (by norm_num),
    (calc_mass_flow_edges_looped_bounded (fun m => m) (fun _ : Fin 1 => 1)).2.2.1 30
      (by norm_num) (by norm_num),
    (calc_mass_flow_edges_looped_bounded (fun m => m) (fun _ : Fin 1 => 1)).2.2.2 70
      (by norm_num) (by norm_num)⟩

/-- Node-mixing step of `calculate_outflow_temp`:
`part1 = np.dot(m_d, t_e_out[j]).sum()` (mass flows entering the node times
their pipe-outlet temperatures), `part2 = np.dot(m_d, z_pipe_out[j]).sum()`
(total mass flow entering the node), `t_node[j] = part1 / part2`. -/
def calculate_outflow_temp_node {e : ℕ} (m_d t_e_out_row z_pipe_out_row : Fin e → ℚ) : ℚ :=
  (∑ j, m_d j * t_e_out_row j) / (∑ j, m_d j * z_pipe_out_row j)

/-- C6: at a node whose incoming pipe-outlet temperatures are all known
(`t_e_out[j, e] = T e` on entering edges, `0` elsewhere, with
`z_pipe_out = clip(z, min=0)`) and whose incoming mass flows do not sum to
zero, the computed node temperature is the mass-flow-weighted average of the
incoming pipes' outlet temperatures. -/
theorem calculate_outflow_temp_node_mixing {e : ℕ}
    (z_row m T t_e_out_row z_pipe_out_row : Fin e → ℚ)
    (hentries : ∀ j, z_row j = -1 ∨ z_row j = 0 ∨ z_row j = 1)
    (hzpo : ∀ j, z_pipe_out_row j = max (z_row j) 0)
    (hteo : ∀ j, t_e_out_row j = z_pipe_out_row j * T j)
    (hm : (∑ j ∈ Finset.univ.filter (fun j => z_row j = 1), m j) ≠ 0) :
    calculate_outflow_temp_node m t_e_out_row z_pipe_out_row
      = (∑ j ∈ Finset.univ.filter (fun j => z_row j = 1), m j * T j)
        / (∑ j ∈ Finset.univ.filter (fun j => z_row j = 1), m j) := by
  have hzpo2 : ∀ j, z_pipe_out_row j = if z_row j = 1 then 1 else 0 := by
    intro j
    rw [hzpo j]
    rcases hentries j with h | h | h <;> rw [h] <;> norm_num
  unfold calculate_outflow_temp_node
  rw [show (∑ j, m j * t_e_out_row j) = ∑ j, if z_row j = 1 then m j * T j else 0 from
      Finset.sum_congr rfl (fun j _ => by
        rw [hteo j, hzpo2 j]
        by_cases h : z_row j = 1 <;> simp [h])]
  rw [show (∑ j, m j * z_pipe_out_row j) = ∑ j, if z_row j = 1 then m j else 0 from
      Finset.sum_congr rfl (fun j _ => by
        rw [hzpo2 j]
        by_cases h : z_row j = 1 <;> simp [h])]
  rw [← Finset.sum_filter, ← Finset.sum_filter]

/-- Incidence row for the C6 witness: both edges enter the node. -/
def zRowW : Fin 2 → ℚ := fun _ => 1

/-- Edge mass flows for the C6 witness. -/
def mW : Fin 2 → ℚ := fun j => if j = 0 then 2 else 3

/-- Pipe outlet temperatures for the C6 witness. -/
def tW : Fin 2 → ℚ := fun j => if j = 0 then 350 else 360

/-- Witness for C6: two incoming edges with flows 2 and 3 and outlet
temperatures 350 K and 360 K mix to the flow-weighted average. -/
theorem calculate_outflow_temp_node_mixing_witness :
    calculate_outflow_temp_node mW (fun j => (max (zRowW j) 0) * tW j)
        (fun j => max (zRowW j) 0)
      = (∑ j ∈ Finset.univ.filter (fun j => zRowW j = 1), mW j * tW j)
        / (∑ j ∈ Finset.univ.filter (fun j => zRowW j = 1), mW j) :=
  calculate_outflow_temp_node_mixing zRowW mW tW _ _
    (by intro j; right; right; rfl)
    (fun j => rfl)
    (fun j => rfl)
    (by
      rw [show (Finset.univ.filter (fun j => zRowW j = 1)) = Finset.univ from
        Finset.filter_true_of_mem (fun j _ => rfl)]
      rw [Fin.sum_univ_two]
      norm_num [mW])

/-- Minimum of a list of rationals (`pandas.Series.min`), `0` on the empty
list (pandas would return NaN; the solver only takes the minimum of non-empty
deficit lists). -/
def listMin : List ℚ → ℚ
  | [] => 0
  | [x] => x
  | x :: y :: t => min x (listMin (y :: t))

/-- Maximum of a list of rationals (`pandas.Series.max`), `0` on the empty
list. -/
def listMax : List ℚ → ℚ
  | [] => 0
  | [x] => x
  | x :: y :: t => max x (listMax (y :: t))

/-- `d_t = (t_node - (t_target_supply + 273.15)).dropna()`: node supply
temperature minus target temperature (K), listed over the nodes that have a
target. -/
def deficits {nn : ℕ} (t_node : Fin nn → ℚ) (target : Fin nn → Option ℚ) : List ℚ :=
  (List.finRange nn).filterMap (fun i => (target i).map (fun τ => t_node i - (τ + 273.15)))

/-- DH re-iteration test of `calc_supply_temperatures`:
`all(d_t > -0.1) == False`, i.e. some node undershoots its target by at least
0.1 K. -/
def dh_unmet {nn : ℕ} (tn : Fin nn → ℚ) (target : Fin nn → Option ℚ) : Bool :=
  (deficits tn target).any (fun d => decide (d ≤ -(1/10)))

/-- DC re-iteration test of `calc_supply_temperatures`:
`all(d_t < 0.1) == False`, i.e. some node overshoots its target by at least
0.1 K. -/
def dc_unmet {nn : ℕ} (tn : Fin nn → ℚ) (target : Fin nn → Option ℚ) : Bool :=
  (deficits tn target).any (fun d => decide ((1/10) ≤ d))

/-- DH bail-out of `calc_supply_temperatures`: every node whose supply
temperature is strictly below its target is forced to the target
(`t_node[index_insufficient] = t_target_supply + 273.15`). -/
def force_deficient_dh {nn : ℕ} (tn : Fin nn → ℚ) (target : Fin nn → Option ℚ) :
    Fin nn → ℚ :=
  fun i => match target i with
    | some τ => if tn i - (τ + 273.15) < 0 then τ + 273.15 else tn i
    | none => tn i

/-- DC bail-out of `calc_supply_temperatures`: every node whose supply
temperature is strictly above its target is forced to the target. -/
def force_excess_dc {nn : ℕ} (tn : Fin nn → ℚ) (target : Fin nn → Option ℚ) :
    Fin nn → ℚ :=
  fun i => match target i with
    | some τ => if 0 < tn i - (τ + 273.15) then τ + 273.15 else tn i
    | none => tn i

/-- Plant-temperature search of `calc_supply_temperatures`, DH branch.
`nodeTemp t` stands for the converged inner supply-pass node temperatures at
plant supply temperature `t`.  While some target is unmet and the drift from
the initial guess `t0` is below 60 K, the plant temperature is raised by the
worst deficit and the pass repeats; once the drift reaches 60 K with targets
still unmet, deficient nodes are forced to their targets and the search
returns (non-fatally, after the printed warning). -/
def calc_supply_temp_search_dh {nn : ℕ} (nodeTemp : ℚ → Fin nn → ℚ)
    (target : Fin nn → Option ℚ) (t0 : ℚ) :
    ℕ → ℚ → Option (ℚ × (Fin nn → ℚ))
  | 0, _ => none
  | fuel + 1, t =>
      if dh_unmet (nodeTemp t) target then
        if t - t0 < 60 then
          calc_supply_temp_search_dh nodeTemp target t0 fuel
            (t + |listMin (deficits (nodeTemp t) target)|)
        else some (t, force_deficient_dh (nodeTemp t) target)
      else some (t, nodeTemp t)

/-- Plant-temperature search of `calc_supply_temperatures`, DC branch: lower
the plant temperature by the worst overshoot while the drop from the initial
guess is below 10 K; at 10 K with targets unmet, force and return. -/
def calc_supply_temp_search_dc {nn : ℕ} (nodeTemp : ℚ → Fin nn → ℚ)
    (target : Fin nn → Option ℚ) (t0 : ℚ) :
    ℕ → ℚ → Option (ℚ × (Fin nn → ℚ))
  | 0, _ => none
  | fuel + 1, t =>
      if dc_unmet (nodeTemp t) target then
        if t0 - t < 10 then
          calc_supply_temp_search_dc nodeTemp target t0 fuel
            (t - |listMax (deficits (nodeTemp t) target)|)
        else some (t, force_excess_dc (nodeTemp t) target)
      else some (t, nodeTemp t)

/-- `calc_supply_temperatures`: initial plant supply guess
`273.15 + max(targets)` for DH, `273.15 + min(targets)` for DC, then the
plant-temperature search.  Returns the final plant supply temperature and node
temperatures. -/
def calc_supply_temperatures {nn : ℕ} (network_type : String)
    (nodeTemp : ℚ → Fin nn → ℚ) (target : Fin nn → Option ℚ) (fuel : ℕ) :
    Option (ℚ × (Fin nn → ℚ)) :=
  if network_type = "DH" then
    calc_supply_temp_search_dh nodeTemp target
      (273.15 + listMax ((List.finRange nn).filterMap target)) fuel
      (273.15 + listMax ((List.finRange nn).filterMap target))
  else
    calc_supply_temp_search_dc nodeTemp target
      (273.15 + listMin ((List.finRange nn).filterMap target)) fuel
      (273.15 + listMin ((List.finRange nn).filterMap target))

/-- Consumer target (80 °C) for the C5 concrete instances. -/
def targetC : Fin 1 → Option ℚ := fun _ => some 80

/-- Inner supply-pass oracle for the C5 counterexample: the single consumer
node always sits 100 K below the plant supply temperature. -/
def nodeTempC : ℚ → Fin 1 → ℚ := fun t _ => t - 100

/-- C5 counterexample: on a DH network whose consumer runs 100 K below the
plant, the search terminates with a plant supply temperature 100 K above the
initial guess — the claimed 60 K drift bound does not hold for the final
plant temperature. -/
theorem calc_supply_temperatures_drift_counterexample :
    (calc_supply_temperatures "DH" nodeTempC targetC 3).map Prod.fst
      = some ((273.15 + 80) + 100) ∧
    ¬ ((((273.15:ℚ) + 80) + 100) - (273.15 + 80) ≤ 60) := by
  constructor
  · have htargets : (List.finRange 1).filterMap targetC = [80] := by
      simp [List.finRange, targetC]
    have hdef : ∀ t : ℚ, deficits (nodeTempC t) targetC = [t - 100 - (80 + 273.15)] := by
      intro t
      simp [deficits, List.finRange, targetC, nodeTempC]
    unfold calc_supply_temperatures
    rw [if_pos rfl, htargets]
    show (calc_supply_temp_search_dh nodeTempC targetC (273.15 + listMax [80]) (2+1)
        (273.15 + listMax [80])).map Prod.fst = _
    rw [calc_supply_temp_search_dh]
    rw [if_pos (by
      rw [dh_unmet, hdef]
      simp
      norm_num [listMax])]
    rw [if_pos (by norm_num)]
    rw [calc_supply_temp_search_dh]
    rw [if_neg (by
      rw [dh_unmet, hdef]
      simp
      norm_num [listMax, listMin, nodeTempC])]
    simp [listMax, listMin, nodeTempC]
    norm_num
  · intro hcontr
    norm_num at hcontr

/-- C5 (amended): the plant-temperature search changes the plant temperature
only while the drift from the initial guess is strictly below 60 K (DH) /
10 K (DC); once the drift reaches the bound with targets still unmet it stops,
returns the current plant temperature, and forces every deficient (DH) /
excessive (DC) consumer node to its target.  Because the final raise itself is
unbounded, the final plant temperature may exceed the bound. -/
theorem calc_supply_temperatures_drift_guard {nn : ℕ} (nodeTemp : ℚ → Fin nn → ℚ)
    (target : Fin nn → Option ℚ) (t0 t : ℚ) (fuel : ℕ) :
    (dh_unmet (nodeTemp t) target = true → t - t0 < 60 →
        calc_supply_temp_search_dh nodeTemp target t0 (fuel + 1) t
          = calc_supply_temp_search_dh nodeTemp target t0 fuel
              (t + |listMin (deficits (nodeTemp t) target)|))
    ∧ (dh_unmet (nodeTemp t) target = true → ¬ (t - t0 < 60) →
        calc_supply_temp_search_dh nodeTemp target t0 (fuel + 1) t
          = some (t, force_deficient_dh (nodeTemp t) target)
        ∧ ∀ i τ, target i = some τ → nodeTemp t i < τ + 273.15 →
            force_deficient_dh (nodeTemp t) target i = τ + 273.15)
    ∧ (dc_unmet (nodeTemp t) target = true → t0 - t < 10 →
        calc_supply_temp_search_dc nodeTemp target t0 (fuel + 1) t
          = calc_supply_temp_search_dc nodeTemp target t0 fuel
              (t - |listMax (deficits (nodeTemp t) target)|))
    ∧ (dc_unmet (nodeTemp t) target = true → ¬ (t0 - t < 10) →
        calc_supply_temp_search_dc nodeTemp target t0 (fuel + 1) t
          = some (t, force_excess_dc (nodeTemp t) target)
        ∧ ∀ i τ, target i = some τ → τ + 273.15 < nodeTemp t i →
            force_excess_dc (nodeTemp t) target i = τ + 273.15) := by
  refine ⟨?_, ?_, ?_, ?_⟩
  · intro h1 h2
    conv_lhs => rw [calc_supply_temp_search_dh]
    rw [if_pos h1, if_pos h2]
  · intro h1 h2
    constructor
    · conv_lhs => rw [calc_supply_temp_search_dh]
      rw [if_pos h1, if_neg h2]
    · intro i τ hti hlt
      unfold force_deficient_dh
      rw [hti]
      show (if nodeTemp t i - (τ + 273.15) < 0 then τ + 273.15 else nodeTemp t i) = τ + 273.15
      rw [if_pos (by linarith)]
  · intro h1 h2
    conv_lhs => rw [calc_supply_temp_search_dc]
    rw [if_pos h1, if_pos h2]
  · intro h1 h2
    constructor
    · conv_lhs => rw [calc_supply_temp_search_dc]
      rw [if_pos h1, if_neg h2]
    · intro i τ hti hlt
      unfold force_excess_dc
      rw [hti]
      show (if 0 < nodeTemp t i - (τ + 273.15) then τ + 273.15 else nodeTemp t i) = τ + 273.15
      rw [if_pos (by linarith)]

/-- Inner supply-pass oracle for the C5 witness: the single consumer node
always sits 200 K below the plant supply temperature. -/
def nodeTempW2 : ℚ → Fin 1 → ℚ := fun t _ => t - 200

/-- Witness for the amended C5 theorem: with the consumer 200 K below the
plant, target 80 °C and a drift already at 100 K ≥ 60 K, the search stops and
forces the deficient node to its target. -/
theorem calc_supply_temperatures_drift_guard_witness :
    calc_supply_temp_search_dh nodeTempW2 targetC (273.15 + 80) 4 ((273.15 + 80) + 100)
      = some ((273.15 + 80) + 100,
          force_deficient_dh (nodeTempW2 ((273.15 + 80) + 100)) targetC)
    ∧ force_deficient_dh (nodeTempW2 ((273.15 + 80) + 100)) targetC 0 = 80 + 273.15 := by
  have h := (calc_supply_temperatures_drift_guard nodeTempW2 targetC (273.15 + 80)
      ((273.15 + 80) + 100) 3).2.1
    (by
      rw [dh_unmet]
      simp [deficits, List.finRange, targetC, nodeTempW2]
      norm_num)
    (by norm_num)
  exact ⟨h.1, h.2 0 80 rfl (by norm_num [nodeTempW2])⟩

end ThermalNetwork
